import Mathlib

/-!
Verification of the dispatch-and-transport core of the vercel-llm-gateway
repository.  The TypeScript sources under `src/api` are shallowly embedded:
pure functions become Lean functions, JS strings become `String` (or
`List Char` where character-level reasoning is needed), JS `Headers` become
a lookup function `String → Option String` keyed by lowercase names, and the
event-loop driven stream transform becomes an explicit state-passing fold.
-/

namespace Gateway

/-! ## Generic string helpers (JS `String.prototype.includes`) -/

/-- Substring test on character lists: does `l` contain `pat` as a
contiguous sublist?  Mirrors JS `l.includes(pat)`. -/
def hasSub (pat : List Char) : List Char → Bool
  | [] => pat.isEmpty
  | c :: rest => pat.isPrefixOf (c :: rest) || hasSub pat rest

/-- JS `s.includes(pat)` on Lean strings. -/
def strIncludes (s pat : String) : Bool :=
  hasSub pat.toList s.toList

/-- JS `opt?.includes(pat)` for an optional string (undefined → false). -/
def optIncludes (o : Option String) (pat : String) : Bool :=
  match o with
  | some s => strIncludes s pat
  | none => false

/-- JS `s.toLowerCase()` (character-wise, as in `String.prototype` for the
ASCII header names at issue). -/
def jsToLower (s : String) : String := String.mk (s.data.map Char.toLower)

/-- JS `s.startsWith(pre)`. -/
def strStartsWith (s pre : String) : Bool := pre.data.isPrefixOf s.data

/-! ## Header allow/deny lists (`src/api/_shared/config.ts`) -/

/-- `ALLOWED_REQUEST_HEADERS` from `config.ts`. -/
def ALLOWED_REQUEST_HEADERS : List String :=
  ["content-type", "content-length", "accept", "accept-encoding",
   "accept-language", "authorization", "user-agent", "referer", "origin",
   "x-api-key", "x-goog-api-key", "api-key",
   "anthropic-version", "anthropic-beta", "openai-beta", "openai-organization",
   "x-stainless-arch", "x-stainless-lang", "x-stainless-os",
   "x-stainless-package-version", "x-stainless-runtime",
   "x-stainless-runtime-version"]

/-- `BLOCKED_REQUEST_HEADERS` from `config.ts`. -/
def BLOCKED_REQUEST_HEADERS : List String :=
  ["host", "connection", "cf-connecting-ip", "cf-ray",
   "x-forwarded-for", "x-real-ip", "cookie", "set-cookie"]

/-- `isAllowedHeader` from `src/api/_shared/utils.ts`: deny-list first,
then allow-list, then the `x-*` custom-header rule. -/
def isAllowedHeader (headerName : String) : Bool :=
  let lower := jsToLower headerName
  if lower ∈ BLOCKED_REQUEST_HEADERS then false
  else if lower ∈ ALLOWED_REQUEST_HEADERS then true
  else strStartsWith lower "x-" && !strStartsWith lower "x-forwarded"
        && !strStartsWith lower "x-real"

/-! ## Streaming response governor (`createSizeLimitedStream`,
`src/api/_shared/middleware.ts`).  A chunk is modelled as its byte list;
the transform's closure state (`totalBytes`, `aborted`) is passed
explicitly, and the controller actions are recorded as events. -/

/-- The mutable closure state of `createSizeLimitedStream`. -/
structure SizeLimitState where
  totalBytes : Nat
  aborted : Bool
deriving DecidableEq

/-- Actions the transform performs on its controller. -/
inductive StreamEvent where
  /-- `controller.enqueue(chunk)` — the chunk is forwarded unchanged. -/
  | enqueue (chunk : List Nat)
  /-- `controller.error(...)` with the size-limit payload. -/
  | errored
deriving DecidableEq

/-- One call of the `transform(chunk, controller)` callback installed by
`createSizeLimitedStream maxSize`. -/
def createSizeLimitedStreamTransform (maxSize : Nat) (st : SizeLimitState)
    (chunk : List Nat) : SizeLimitState × List StreamEvent :=
  if st.aborted then (st, [])
  else
    let totalBytes := st.totalBytes + chunk.length
    if totalBytes > maxSize then
      ({ totalBytes := totalBytes, aborted := true }, [.errored])
    else
      ({ totalBytes := totalBytes, aborted := false }, [.enqueue chunk])

/-- Feeding a whole list of upstream chunks through the transform. -/
def runSizeLimitedStream (maxSize : Nat) (st : SizeLimitState) :
    List (List Nat) → SizeLimitState × List StreamEvent
  | [] => (st, [])
  | c :: cs =>
    let step := createSizeLimitedStreamTransform maxSize st c
    let rest := runSizeLimitedStream maxSize step.1 cs
    (rest.1, step.2 ++ rest.2)

/-! ## Routing decision engine (`src/api/_shared/utils.ts`). -/

/-- `STREAMING_PATHS` from `config.ts`. -/
def STREAMING_PATHS : List String :=
  ["/v1/chat/completions", "/v1/completions", "/v1/messages",
   "/v1/realtime", "/v1/engines", "/v1/responses"]

/-- `LONG_RUNNING_PATHS` from `config.ts`. -/
def LONG_RUNNING_PATHS : List String :=
  ["/v1/audio/transcriptions", "/v1/audio/translations",
   "/v1/images/generations", "/v1/images/edits", "/v1/images/variations",
   "/v1/embeddings", "/v1/fine-tunes", "/v1/fine_tuning/jobs",
   "/v1/files", "/v1/batches"]

/-- Result of `await cloned.json()` on the request body, abstracted to the
one field the router reads: whether the parsed document satisfies
`body.stream === true`. -/
structure ParsedJsonBody where
  streamFieldIsTrue : Bool
deriving DecidableEq

/-- The projection of an inbound `Request` (plus its `RequestContext`)
that `isStreamingRequest` and `shouldForwardToBackground` read. -/
structure GatewayRequest where
  /-- `url.searchParams.get ("stream")`. -/
  queryStream : Option String
  /-- `req.headers.get ("accept")`. -/
  accept : Option String
  /-- `url.pathname`. -/
  pathname : String
  /-- `req.method`. -/
  method : String
  /-- whether `req.body` is non-null. -/
  hasBody : Bool
  /-- `req.headers.get ("content-type")`. -/
  contentType : Option String
  /-- `some b` iff `await cloned.json()` succeeds, with its `stream` field
  summarized in `b`; `none` models a parse failure (caught and ignored). -/
  jsonBody : Option ParsedJsonBody
  /-- `req.headers.get ("content-length")`, already parsed to a number. -/
  contentLength : Option Nat
  /-- `context.service` (the provider alias from the path). -/
  service : String
deriving DecidableEq

/-- `isStreamingRequest` from `src/api/_shared/utils.ts` (lines 89–128):
query flag first, then the Accept header, then the streaming-path gate,
then the JSON body `stream` field for POST bodies. -/
def isStreamingRequest (r : GatewayRequest) : Bool :=
  if r.queryStream = some "true" then true
  else if optIncludes r.accept "text/event-stream" then true
  else if ¬ (STREAMING_PATHS.any fun p => strIncludes r.pathname p) then false
  else if r.method = "POST" ∧ r.hasBody = true then
    match r.contentType with
    | some ct =>
      if strIncludes ct "application/json" then
        match r.jsonBody with
        | some b => b.streamFieldIsTrue
        | none => false
      else false
    | none => false
  else false

/-- `shouldForwardToBackground` from `src/api/_shared/utils.ts`
(lines 130–183), reduced to its boolean `shouldForward` component. -/
def shouldForwardToBackground (r : GatewayRequest) : Bool :=
  if r.method ∈ ["GET", "HEAD", "OPTIONS"] then false
  else if isStreamingRequest r then false
  else if LONG_RUNNING_PATHS.any fun p => strIncludes r.pathname p then true
  else if (match r.contentLength with
           | some size => decide (size > 1048576)
           | none => false) = true then true
  else if r.service = "openai" ∧ strIncludes r.pathname "/v1/embeddings" then
    true
  else false

/-- The amended routing condition, written from the spec sentence as
corrected by the counterexample: a request is classified streaming iff the
`stream=true` query flag is present, OR the Accept header contains
`text/event-stream`, OR (the path matches the streaming-path set AND the
request is a POST with a JSON body that parses with `stream === true`). -/
def isStreamingRequestSpec (r : GatewayRequest) : Bool :=
  decide (r.queryStream = some "true")
  || optIncludes r.accept "text/event-stream"
  || ((STREAMING_PATHS.any fun p => strIncludes r.pathname p)
      && decide (r.method = "POST") && r.hasBody
      && (match r.contentType with
          | some ct => strIncludes ct "application/json"
          | none => false)
      && (match r.jsonBody with
          | some b => b.streamFieldIsTrue
          | none => false))

/-! ## Upstream executor (`fetchWithRetry`, `src/api/_shared/middleware.ts`).
The sequence of outcomes of the underlying `fetch` calls is abstracted as
an oracle indexed by the attempt number. -/

/-- An upstream response, reduced to the fields `fetchWithRetry` reads. -/
structure UpstreamResponse where
  status : Nat
  statusText : String
deriving DecidableEq

/-- Outcome of one underlying `fetch` call. -/
inductive FetchOutcome where
  /-- The promise resolved with this response. -/
  | success (resp : UpstreamResponse)
  /-- The promise rejected with an error carrying this message. -/
  | failure (msg : String)
deriving DecidableEq

/-- The retryable transport-error classes tested in the catch block. -/
def RETRYABLE_ERRORS : List String :=
  ["timeout", "network", "connection", "fetch", "econnreset", "etimedout"]

/-- `retryableErrors.some(e => errorMsg.includes(e))` over the lowercased
error message. -/
def isRetryableErrorMsg (msg : String) : Bool :=
  RETRYABLE_ERRORS.any fun e => strIncludes (jsToLower msg) e

/-- What `fetchWithRetry` produces: a returned response or a thrown error. -/
inductive RetryResult where
  | returned (resp : UpstreamResponse)
  | threw (msg : String)
deriving DecidableEq

/-- The `for (attempt = 0; attempt <= maxRetries; attempt++)` loop of
`fetchWithRetry`.  `fuel` bounds the remaining iterations (the caller
passes `maxRetries + 1`, one per loop iteration); the second component
counts the `fetch` calls actually issued.  Exiting the loop throws
`lastError || new Error ("Request failed after retries")`. -/
def fetchWithRetryLoop (outcomes : Nat → FetchOutcome) (maxRetries : Nat) :
    Nat → Nat → Option String → RetryResult × Nat
  | 0, _, lastError =>
    (.threw (lastError.getD "Request failed after retries"), 0)
  | fuel + 1, attempt, _ =>
    match outcomes attempt with
    | .success resp =>
      if 500 ≤ resp.status ∧ attempt < maxRetries then
        let r := fetchWithRetryLoop outcomes maxRetries fuel (attempt + 1)
          (some ("Server error: " ++ toString resp.status ++ " "
                  ++ resp.statusText))
        (r.1, r.2 + 1)
      else (.returned resp, 1)
    | .failure msg =>
      if attempt = maxRetries then (.threw msg, 1)
      else if isRetryableErrorMsg msg then
        let r := fetchWithRetryLoop outcomes maxRetries fuel (attempt + 1)
          (some msg)
        (r.1, r.2 + 1)
      else (.threw msg, 1)

/-- `fetchWithRetry` from `src/api/_shared/middleware.ts` (lines 9–79):
when `maxRetries ≤ 0` or the method is not retryable a single plain
`fetch(request)` is issued; otherwise the retry loop runs. -/
def fetchWithRetry (maxRetries : Nat) (method : String)
    (retryableMethods : List String) (outcomes : Nat → FetchOutcome) :
    RetryResult × Nat :=
  if maxRetries ≤ 0 ∨ ¬ retryableMethods.contains method then
    (match outcomes 0 with
     | .success resp => .returned resp
     | .failure msg => .threw msg, 1)
  else
    fetchWithRetryLoop outcomes maxRetries (maxRetries + 1) 0 none

/-- `Math.min(100 * Math.pow(2, attempt), 5000)`, over `ℚ`. -/
def baseDelay (attempt : Nat) : ℚ := min (100 * 2 ^ attempt) 5000

/-- `baseDelay * 0.3 * (rand - 0.5)` where `rand` stands for the value of
`Math.random()`. -/
def backoffJitter (attempt : Nat) (rand : ℚ) : ℚ :=
  baseDelay attempt * (3 / 10) * (rand - 1 / 2)

/-- `Math.max(baseDelay + jitter, 100)`: the delay slept before the next
attempt. -/
def retryDelay (attempt : Nat) (rand : ℚ) : ℚ :=
  max (baseDelay attempt + backoffJitter attempt rand) 100

/-! ## Response headers (`errors.ts`, `middleware.ts`, `gateway.ts`).
A JS `Headers` object is modelled as a lookup function keyed by lowercase
header name; `set` overwrites. -/

/-- Header map: lowercase name → value. -/
def HeadersModel : Type := String → Option String

/-- The empty `new Headers()`. -/
def emptyHeaders : HeadersModel := fun _ => none

/-- `headers.set(name, value)` (JS `Headers` lowercases names). -/
def hset (h : HeadersModel) (name value : String) : HeadersModel :=
  fun q => if q = jsToLower name then some value else h q

/-- Copying a list of entries into a headers object with repeated `set`. -/
def hsetAll (h : HeadersModel) (entries : List (String × String)) :
    HeadersModel :=
  entries.foldl (fun acc kv => hset acc kv.1 kv.2) h

/-- `createCorsHeaders` from `src/api/_shared/utils.ts`, applied on top of
an existing header map (modelling the `forEach`/loop copies at the call
sites). -/
def corsOverlay (h : HeadersModel) (allowedOrigin : String) : HeadersModel :=
  hset (hset (hset (hset (hset h
    "Access-Control-Allow-Origin" allowedOrigin)
    "Access-Control-Allow-Methods" "GET, POST, PUT, DELETE, OPTIONS, PATCH, HEAD")
    "Access-Control-Allow-Headers" "*")
    "Access-Control-Expose-Headers"
      "Content-Type, Content-Length, X-Request-Id, X-Processing-Mode, X-Processing-Time")
    "Access-Control-Max-Age" "86400"

/-- The headers built by `createErrorResponse` in `src/api/_shared/errors.ts`
(lines 95–102). -/
def createErrorResponseHeaders (reqId allowedOrigin : String) : HeadersModel :=
  hset (hset (hset (hset (hset (hset emptyHeaders
    "Content-Type" "application/json; charset=utf-8")
    "X-Request-Id" reqId)
    "Access-Control-Allow-Origin" allowedOrigin)
    "Access-Control-Allow-Methods" "GET, POST, PUT, DELETE, OPTIONS, PATCH, HEAD")
    "Access-Control-Allow-Headers" "*")
    "Cache-Control" "no-cache, no-store, must-revalidate"

/-- The response headers excluded from copying in `processResponseHeaders`. -/
def EXCLUDED_RESPONSE_HEADERS : List String :=
  ["content-encoding", "transfer-encoding", "connection", "keep-alive",
   "server", "x-powered-by", "cf-ray", "cf-cache-status"]

/-- `processResponseHeaders` from `src/api/_shared/middleware.ts`
(lines 129–170): copy the non-excluded upstream headers, overlay CORS,
then the tracking and security headers. -/
def processResponseHeaders (upstream : List (String × String))
    (reqId mode allowedOrigin : String) : HeadersModel :=
  hset (hset (hset (hset (hset (corsOverlay
    (hsetAll emptyHeaders
      (upstream.filter fun kv =>
        !decide (jsToLower kv.1 ∈ EXCLUDED_RESPONSE_HEADERS)))
    allowedOrigin)
    "X-Request-Id" reqId)
    "X-Processing-Mode" mode)
    "X-Gateway-Version" "1.0.0")
    "X-Content-Type-Options" "nosniff")
    "X-Frame-Options" "DENY"

/-- The headers of a successful fast-path response: `handleInEdge` runs
`processResponseHeaders` with mode `edge`, sets `X-Processing-Time`, and
`createStreamingResponse` then sets `Cache-Control` and
`X-Accel-Buffering`. -/
def edgeResponseHeaders (upstream : List (String × String))
    (reqId procTime allowedOrigin : String) : HeadersModel :=
  hset (hset (hset (processResponseHeaders upstream reqId "edge" allowedOrigin)
    "X-Processing-Time" procTime)
    "Cache-Control" "no-cache, no-store, must-revalidate")
    "X-Accel-Buffering" "no"

/-- The headers of a successful long-path response (`forwardToBackground`
lines 196–205): copy the background response headers, set the tracking
headers, then overlay CORS last. -/
def backgroundResponseHeaders (bg : List (String × String))
    (reqId procTime allowedOrigin : String) : HeadersModel :=
  corsOverlay
    (hset (hset (hset (hsetAll emptyHeaders bg)
      "X-Request-Id" reqId)
      "X-Processing-Mode" "background")
      "X-Processing-Time" procTime)
    allowedOrigin

/-- The headers of the CORS preflight response (`handler`,
`src/api/gateway.ts` lines 296–301): a 204 with exactly
`createCorsHeaders()` and nothing else. -/
def optionsResponseHeaders (allowedOrigin : String) : HeadersModel :=
  corsOverlay emptyHeaders allowedOrigin

/-- The headers of the health-check response (`handler`,
`src/api/gateway.ts` lines 271–286): a `Content-Type` entry plus the
spread of `createCorsHeaders()`. -/
def healthResponseHeaders (allowedOrigin : String) : HeadersModel :=
  corsOverlay (hset emptyHeaders "Content-Type" "application/json")
    allowedOrigin

/-! ## Dispatch controller: `forwardToBackground` (`src/api/gateway.ts`).
The outcome of the `fetch(backgroundUrl, ...)` call is abstracted as an
oracle value; the function's catch-block decision logic is embedded
verbatim. -/

/-- What the long-path `fetch` to the background function did. -/
inductive BackgroundOutcome where
  /-- `fetch` resolved with a response of this status. -/
  | response (status : Nat)
  /-- `fetch` rejected with an error whose `name` is `AbortError`
  (the 20 s timer fired). -/
  | abortError
  /-- `fetch` rejected with any other error. -/
  | otherError (msg : String)
deriving DecidableEq

/-- What `forwardToBackground` returns to the caller. -/
inductive BackgroundResult where
  /-- The background response is relayed (status preserved). -/
  | relayed (status : Nat)
  /-- `createErrorResponse status message reqId` is returned. -/
  | errorResponse (status : Nat) (message : String)
  /-- Degradation: `handleInEdge` is re-invoked on the same request. -/
  | fallbackToEdge
deriving DecidableEq

/-- The control flow of `forwardToBackground` in `src/api/gateway.ts`
(lines 178–244), as a function of the fetch outcome, the provider's
optional `allowFallback` field and the process-wide `ENV.ENABLE_FALLBACK`
flag.  `allowFallback ≠ some false` embeds the JS test
`proxy.allowFallback !== false` (an absent field passes it). -/
def forwardToBackground (outcome : BackgroundOutcome)
    (allowFallback : Option Bool) (enableFallback : Bool) : BackgroundResult :=
  match outcome with
  | .response status => .relayed status
  | .abortError => .errorResponse 504 "Background processing timeout"
  | .otherError _ =>
    if allowFallback ≠ some false ∧ enableFallback = true then
      .fallbackToEdge
    else
      .errorResponse 500 "Background processing failed"

/-! ## Deadlines (`src/api/gateway.ts`, `src/api/_shared/config.ts`). -/

/-- JS `a || b` on an optional numeric field: `0` and `undefined` are both
falsy. -/
def jsNumOr (o : Option Nat) (d : Nat) : Nat :=
  match o with
  | some t => if t = 0 then d else t
  | none => d

/-- `handleInEdge` line 62: `Math.min(proxy.timeout || ENV.DEFAULT_TIMEOUT,
20000)`. -/
def edgeTimeoutMs (proxyTimeout : Option Nat) (defaultTimeout : Nat) : Nat :=
  min (jsNumOr proxyTimeout defaultTimeout) 20000

/-- The hard fast-path ceiling of 20000 ms applied in `handleInEdge`. -/
def edgeTimeoutCeilingMs : Nat := 20000

/-- `forwardToBackground` line 176: `setTimeout(() => controller.abort(),
20000)` — the deadline on the forwarding fetch to the background function. -/
def backgroundForwardTimeoutMs : Nat := 20000

/-- `ENV.BACKGROUND_TIMEOUT` default from `config.ts`
(`parseInt(process.env.BACKGROUND_TIMEOUT || '240000', 10)`); it is used by
the background function for its own upstream call but not by
`forwardToBackground`. -/
def BACKGROUND_TIMEOUT_default : Nat := 240000


/-! ## Path sanitizer (`sanitizePath`, `src/api/_shared/utils.ts`,
lines 23–33).  JS strings are modelled as `List Char` here so that the
character-level behaviour of `split`, `join`, `encodeURIComponent` and the
`%3A` un-escaping can be reasoned about directly. -/

/-- JS `str.split(sep)` for a single-character separator (keeps empty
pieces, `"".split(sep) = [""]`). -/
def splitChar (sep : Char) : List Char → List (List Char)
  | [] => [[]]
  | c :: rest =>
    match splitChar sep rest with
    | [] => [[]]
    | s :: ss => if c = sep then [] :: s :: ss else (c :: s) :: ss

/-- JS `arr.join(sep)` for a single-character separator. -/
def joinChar (sep : Char) : List (List Char) → List Char
  | [] => []
  | [s] => s
  | s :: rest => s ++ sep :: joinChar sep rest

/-- `concatMap f l`: concatenation of the images of the elements of `l`. -/
def concatMap {α β : Type} (f : α → List β) : List α → List β
  | [] => []
  | a :: as => f a ++ concatMap f as

/-- The non-alphanumeric characters `encodeURIComponent` leaves
unescaped: `- _ . ! ~ * ' ( )` (the seventh is the apostrophe). -/
def uriUnreservedMarks : List Char :=
  ['-', '_', '.', '!', '~', '*', Char.ofNat 39, '(', ')']

/-- Whether `encodeURIComponent` leaves the character unescaped. -/
def isUnreservedURIChar (c : Char) : Bool :=
  c.isAlpha || c.isDigit || uriUnreservedMarks.contains c

/-- Uppercase hexadecimal digit for `n < 16`. -/
def hexDigit (n : Nat) : Char :=
  if n < 10 then Char.ofNat (48 + n) else Char.ofNat (55 + n)

/-- `%XX` percent-escape of one byte. -/
def percentEncodeByte (b : Nat) : List Char :=
  ['%', hexDigit (b / 16), hexDigit (b % 16)]

/-- UTF-8 encoding of a Unicode scalar value, as byte values. -/
def utf8Bytes (c : Char) : List Nat :=
  if c.toNat < 128 then [c.toNat]
  else if c.toNat < 2048 then [192 + c.toNat / 64, 128 + c.toNat % 64]
  else if c.toNat < 65536 then
    [224 + c.toNat / 4096, 128 + (c.toNat / 64) % 64, 128 + c.toNat % 64]
  else
    [240 + c.toNat / 262144, 128 + (c.toNat / 4096) % 64,
     128 + (c.toNat / 64) % 64, 128 + c.toNat % 64]

/-- `encodeURIComponent` on a single character. -/
def encodeChar (c : Char) : List Char :=
  if isUnreservedURIChar c then [c]
  else concatMap percentEncodeByte (utf8Bytes c)

/-- JS `encodeURIComponent(s)`. -/
def encodeURIComponent (s : List Char) : List Char :=
  concatMap encodeChar s

/-- JS `.replace(/%3A/gi, ':')`: rewrite every (upper- or lower-case)
`%3A` escape back to a colon, scanning left to right. -/
def replaceColonEscapes : List Char → List Char
  | [] => []
  | c :: rest =>
    if c = '%' then
      match rest with
      | d :: e :: rest2 =>
        if d = '3' ∧ (e = 'A' ∨ e = 'a') then ':' :: replaceColonEscapes rest2
        else c :: replaceColonEscapes (d :: e :: rest2)
      | rest1 => c :: replaceColonEscapes rest1
    else c :: replaceColonEscapes rest

/-- The per-piece mapping of `sanitizePath`:
`s => encodeURIComponent(s).replace(/%3A/gi, ':')`. -/
def encodeSegmentPart (s : List Char) : List Char :=
  replaceColonEscapes (encodeURIComponent s)

/-- `sanitizePath` from `src/api/_shared/utils.ts`: drop falsy, `.` and
`..` segments, percent-encode each remaining segment piecewise (restoring
colons), and join with `/`. -/
def sanitizePath (parts : List (List Char)) : List Char :=
  joinChar '/'
    ((parts.filter fun seg =>
        !(seg == [] || seg == ['.'] || seg == ['.', '.'])).map
      fun seg => joinChar '/' ((splitChar '/' seg).map encodeSegmentPart))

/-- Normal form of `encodeSegmentPart` on one input character: the colon
byte `0x3A` comes back as `:`, every other byte stays a `%XX` escape. -/
def pctByteRepl (b : Nat) : List Char :=
  if b = 58 then [':'] else percentEncodeByte b

/-- Normal form of `encodeSegmentPart` on one character. -/
def encCharRepl (c : Char) : List Char :=
  if isUnreservedURIChar c then [c]
  else concatMap pctByteRepl (utf8Bytes c)

/-! # Lemmas and claim theorems -/

lemma runSizeLimitedStream_aborted (maxSize : Nat) (st : SizeLimitState)
    (cs : List (List Nat)) (h : st.aborted = true) :
    runSizeLimitedStream maxSize st cs = (st, []) := by
  induction cs with
  | nil => rfl
  | cons c cs ih =>
    simp only [runSizeLimitedStream, createSizeLimitedStreamTransform, h,
      if_true, ih]
    rfl

lemma runSizeLimitedStream_exceeds (maxSize : Nat) :
    ∀ (chunks : List (List Nat)) (k t : Nat), 1 ≤ k → k ≤ chunks.length →
    t + ((chunks.take (k - 1)).map List.length).sum ≤ maxSize →
    t + ((chunks.take k).map List.length).sum > maxSize →
    (runSizeLimitedStream maxSize ⟨t, false⟩ chunks).2
      = (chunks.take (k - 1)).map StreamEvent.enqueue ++ [StreamEvent.errored] := by
  intro chunks
  induction chunks with
  | nil =>
    intro k t hk1 hk2 _ _
    simp at hk2
    omega
  | cons c cs ih =>
    intro k t hk1 hk2 hle hgt
    match k, hk1 with
    | 1, _ =>
      simp only [Nat.sub_self, List.take_zero, List.map_nil, List.sum_nil,
        Nat.add_zero] at hle
      simp only [List.take_succ_cons, List.take_zero, List.map_cons,
        List.map_nil, List.sum_cons, List.sum_nil, Nat.add_zero] at hgt
      simp only [runSizeLimitedStream, createSizeLimitedStreamTransform]
      rw [if_neg (by simp), if_pos hgt]
      rw [runSizeLimitedStream_aborted maxSize _ cs rfl]
      simp
    | (j + 2), _ =>
      have hk2' : j + 1 ≤ cs.length := by simpa using hk2
      have e1 : j + 2 - 1 = j + 1 := rfl
      rw [e1] at hle ⊢
      simp only [List.take_succ_cons, List.map_cons, List.sum_cons] at hle
      simp only [List.take_succ_cons, List.map_cons, List.sum_cons] at hgt
      simp only [runSizeLimitedStream, createSizeLimitedStreamTransform]
      rw [if_neg (by simp), if_neg (by omega)]
      have hrec := ih (j + 1) (t + c.length) (by omega) hk2' ?_ ?_
      · have e2 : j + 1 - 1 = j := rfl
        rw [e2] at hrec
        simp [hrec]
      · have e2 : j + 1 - 1 = j := rfl
        rw [e2]
        omega
      · omega

/-- C2: feeding a response body through the streaming governor, if the
cumulative chunk size first exceeds the limit at chunk `k` (1-indexed),
chunks `1..k-1` are forwarded unchanged, no chunk at position `k` or later
is emitted — the stream is errored instead — and once the `aborted` flag is
set no further bytes are ever emitted. -/
theorem createSizeLimitedStream_truncates_at_first_excess
    (maxSize : Nat) (chunks : List (List Nat)) (k : Nat)
    (hk1 : 1 ≤ k) (hk2 : k ≤ chunks.length)
    (hle : ((chunks.take (k - 1)).map List.length).sum ≤ maxSize)
    (hgt : ((chunks.take k).map List.length).sum > maxSize) :
    (runSizeLimitedStream maxSize ⟨0, false⟩ chunks).2
      = (chunks.take (k - 1)).map StreamEvent.enqueue ++ [StreamEvent.errored]
    ∧ ∀ (st : SizeLimitState) (cs : List (List Nat)), st.aborted = true →
        (runSizeLimitedStream maxSize st cs).2 = [] := by
  constructor
  · have := runSizeLimitedStream_exceeds maxSize chunks k 0 hk1 hk2
      (by omega) (by omega)
    simpa using this
  · intro st cs h
    rw [runSizeLimitedStream_aborted maxSize st cs h]

/-- Witness for C2 at a concrete input: limit 10, three 4-byte chunks,
first excess at chunk 3. -/
theorem createSizeLimitedStream_truncates_at_first_excess_witness :
    (1 ≤ 3 ∧ 3 ≤ ([[0, 1, 2, 3], [4, 5, 6, 7], [8, 9, 10, 11]] :
        List (List Nat)).length
      ∧ ((([[0, 1, 2, 3], [4, 5, 6, 7], [8, 9, 10, 11]] :
            List (List Nat)).take (3 - 1)).map List.length).sum ≤ 10
      ∧ ((([[0, 1, 2, 3], [4, 5, 6, 7], [8, 9, 10, 11]] :
            List (List Nat)).take 3).map List.length).sum > 10)
    ∧ ((runSizeLimitedStream 10 ⟨0, false⟩
          [[0, 1, 2, 3], [4, 5, 6, 7], [8, 9, 10, 11]]).2
        = (([[0, 1, 2, 3], [4, 5, 6, 7], [8, 9, 10, 11]] :
            List (List Nat)).take (3 - 1)).map StreamEvent.enqueue
          ++ [StreamEvent.errored]
      ∧ ∀ (st : SizeLimitState) (cs : List (List Nat)), st.aborted = true →
          (runSizeLimitedStream 10 st cs).2 = []) :=
  ⟨by decide,
   createSizeLimitedStream_truncates_at_first_excess 10
     [[0, 1, 2, 3], [4, 5, 6, 7], [8, 9, 10, 11]] 3
     (by decide) (by decide) (by decide) (by decide)⟩

/-- C8: a header is forwarded iff its lowercase name is allow-listed or is
an `x-` header outside the `x-forwarded`/`x-real` families, with the
deny-list overriding both; in particular `cookie` is dropped,
`x-my-custom` is kept, `x-forwarded-for` is dropped. -/
theorem isAllowedHeader_spec :
    (∀ name : String,
      isAllowedHeader name =
        (!decide (jsToLower name ∈ BLOCKED_REQUEST_HEADERS)
          && (decide (jsToLower name ∈ ALLOWED_REQUEST_HEADERS)
              || (strStartsWith (jsToLower name) "x-"
                  && !strStartsWith (jsToLower name) "x-forwarded"
                  && !strStartsWith (jsToLower name) "x-real"))))
    ∧ isAllowedHeader "cookie" = false
    ∧ isAllowedHeader "x-my-custom" = true
    ∧ isAllowedHeader "x-forwarded-for" = false := by
  refine ⟨?_, by decide, by decide, by decide⟩
  intro name
  unfold isAllowedHeader
  by_cases hb : jsToLower name ∈ BLOCKED_REQUEST_HEADERS <;>
    by_cases ha : jsToLower name ∈ ALLOWED_REQUEST_HEADERS <;>
      simp [hb, ha]

/-- C1 counterexample: a long-path invocation that fails with a timeout
(`AbortError`) is NOT re-run through the fast path even though the profile
permits fallback (`allowFallback = true`) and fallback is enabled
process-wide; a 504 error is surfaced instead. -/
theorem forwardToBackground_timeout_cex :
    forwardToBackground .abortError (some true) true
      = .errorResponse 504 "Background processing timeout"
    ∧ forwardToBackground .abortError (some true) true
        ≠ .fallbackToEdge := by
  constructor
  · rfl
  · intro h
    simp [forwardToBackground] at h

/-- C1 (amended): if the long-path invocation fails with any error other
than the timeout abort, and the profile does not set `allowFallback` to
`false`, and fallback is enabled process-wide, the dispatch controller
re-runs the request through the fast path; a timeout abort instead
surfaces a 504 without fallback. -/
theorem forwardToBackground_fallback_on_nontimeout
    (msg : String) (allowFallback : Option Bool)
    (h : allowFallback ≠ some false) :
    forwardToBackground (.otherError msg) allowFallback true = .fallbackToEdge
    ∧ forwardToBackground .abortError allowFallback true
        = .errorResponse 504 "Background processing timeout" := by
  constructor
  · simp [forwardToBackground, h]
  · rfl

/-- Witness for the amended C1 at a concrete input: a network error with
an absent `allowFallback` field and fallback enabled. -/
theorem forwardToBackground_fallback_on_nontimeout_witness :
    ((none : Option Bool) ≠ some false)
    ∧ (forwardToBackground (.otherError "network error") none true
        = .fallbackToEdge
      ∧ forwardToBackground .abortError none true
          = .errorResponse 504 "Background processing timeout") :=
  ⟨by decide, forwardToBackground_fallback_on_nontimeout "network error" none
    (by decide)⟩

/-- C9: once a non-timeout long-path failure reaches the fallback decision
point, the fast-path fallback is taken exactly when process-wide fallback
is enabled and `allowFallback` is not explicitly `false`; in particular a
profile with no `allowFallback` field permits fallback. -/
theorem forwardToBackground_fallback_iff
    (msg : String) (allowFallback : Option Bool) (enableFallback : Bool) :
    (forwardToBackground (.otherError msg) allowFallback enableFallback
        = .fallbackToEdge
      ↔ (allowFallback ≠ some false ∧ enableFallback = true))
    ∧ forwardToBackground (.otherError msg) none true = .fallbackToEdge := by
  constructor
  · simp only [forwardToBackground]
    split_ifs with hc
    · simp [hc]
    · simp [hc]
  · simp [forwardToBackground]

/-- C6: the deadline `forwardToBackground` puts on its forwarding fetch to
the long-duration environment is the hardcoded 20000 ms — equal to, not
larger than, the fast-path ceiling (every fast-path deadline is at most
that ceiling), even though the configuration declares a 240000 ms
long-path timeout. -/
theorem backgroundForwardDeadline_not_larger :
    backgroundForwardTimeoutMs = 20000
    ∧ (∀ proxyTimeout defaultTimeout,
        edgeTimeoutMs proxyTimeout defaultTimeout ≤ edgeTimeoutCeilingMs)
    ∧ ¬ (edgeTimeoutCeilingMs < backgroundForwardTimeoutMs)
    ∧ BACKGROUND_TIMEOUT_default = 240000 := by
  refine ⟨rfl, ?_, by decide, rfl⟩
  intro pt dt
  exact min_le_right _ _

/-- C3 counterexample: a POST to a path outside the streaming-path set is
still classified as streaming when the `stream=true` query flag is present
— the query flag (and the Accept header) short-circuit before the path is
consulted, so the claimed "path matches AND (...)" condition is false of
the code. -/
theorem isStreamingRequest_query_without_path_cex :
    isStreamingRequest
      { queryStream := some "true", accept := none, pathname := "/x",
        method := "POST", hasBody := true,
        contentType := some "application/json",
        jsonBody := some { streamFieldIsTrue := false },
        contentLength := none, service := "acme" } = true
    ∧ (STREAMING_PATHS.any fun p => strIncludes "/x" p) = false := by
  constructor
  · decide
  · decide

/-- C3 (amended): the engine classifies a request as streaming exactly
when the `stream=true` query flag is present, OR the Accept header
contains `text/event-stream`, OR (the path matches the streaming-path set
AND the request is a POST with a JSON body whose `stream` field is
exactly `true`); a streaming-classified request is dispatched fast-path
(never forwarded to the background). -/
theorem isStreamingRequest_characterization :
    (∀ r : GatewayRequest, isStreamingRequest r = isStreamingRequestSpec r)
    ∧ (∀ r : GatewayRequest, isStreamingRequest r = true →
        shouldForwardToBackground r = false) := by
  constructor
  · intro r
    rcases r with ⟨q, a, pth, m, b, ct, jb, cl, svc⟩
    unfold isStreamingRequest isStreamingRequestSpec
    dsimp only
    by_cases hq : q = some "true" <;>
      cases ha : optIncludes a "text/event-stream" <;>
        cases hp : (STREAMING_PATHS.any fun p => strIncludes pth p) <;>
          by_cases hm : m = "POST" <;>
            cases b <;> cases ct <;> cases jb <;>
              simp_all [Bool.and_assoc]
  · intro r h
    unfold shouldForwardToBackground
    rw [h]
    split <;> rfl

/-- Witness for C3's amended implication at a concrete input: a streaming
POST (query flag set) is not forwarded to the background. -/
theorem isStreamingRequest_characterization_witness :
    (isStreamingRequest
      { queryStream := some "true", accept := none,
        pathname := "/v1/chat/completions", method := "POST",
        hasBody := true, contentType := some "application/json",
        jsonBody := some { streamFieldIsTrue := true },
        contentLength := none, service := "openai" } = true)
    ∧ shouldForwardToBackground
      { queryStream := some "true", accept := none,
        pathname := "/v1/chat/completions", method := "POST",
        hasBody := true, contentType := some "application/json",
        jsonBody := some { streamFieldIsTrue := true },
        contentLength := none, service := "openai" } = false :=
  ⟨by decide,
   isStreamingRequest_characterization.2
     { queryStream := some "true", accept := none,
       pathname := "/v1/chat/completions", method := "POST",
       hasBody := true, contentType := some "application/json",
       jsonBody := some { streamFieldIsTrue := true },
       contentLength := none, service := "openai" } (by decide)⟩

lemma fetchWithRetryLoop_count (outcomes : Nat → FetchOutcome)
    (maxRetries : Nat) :
    ∀ (fuel attempt : Nat) (lastError : Option String),
      (fetchWithRetryLoop outcomes maxRetries fuel attempt lastError).2 ≤ fuel := by
  intro fuel
  induction fuel with
  | zero => intro _ _; simp [fetchWithRetryLoop]
  | succ f ih =>
    intro attempt lastError
    cases h : outcomes attempt with
    | success resp =>
      simp only [fetchWithRetryLoop, h]
      split
      · have hrec := ih (attempt + 1)
          (some ("Server error: " ++ toString resp.status ++ " "
            ++ resp.statusText))
        simp only []
        simp
        omega
      · simp
    | failure msg =>
      simp only [fetchWithRetryLoop, h]
      split
      · simp
      · split
        · have hrec := ih (attempt + 1) (some msg)
          simp
          omega
        · simp

/-- C4: the backoff delay before retry attempt `n` (0-indexed) always lies
within `[0.85, 1.15] × min(100·2^n, 5000)` ms and is at least 100 ms, and
the number of `fetch` calls issued by `fetchWithRetry` never exceeds
`maxRetries + 1`. -/
theorem fetchWithRetry_backoff_and_attempt_bounds :
    (∀ (n : Nat) (rand : ℚ), 0 ≤ rand → rand < 1 →
      100 ≤ retryDelay n rand
      ∧ (85 / 100) * baseDelay n ≤ retryDelay n rand
      ∧ retryDelay n rand ≤ (115 / 100) * baseDelay n)
    ∧ (∀ (maxRetries : Nat) (method : String)
        (retryableMethods : List String) (outcomes : Nat → FetchOutcome),
        (fetchWithRetry maxRetries method retryableMethods outcomes).2
          ≤ maxRetries + 1) := by
  constructor
  · intro n rand h0 h1
    have h2 : (1 : ℚ) ≤ 2 ^ n := by
      induction n with
      | zero => norm_num
      | succ k ih => rw [pow_succ]; nlinarith
    have hb : (100 : ℚ) ≤ baseDelay n := by
      unfold baseDelay
      rcases min_cases (100 * (2 : ℚ) ^ n) 5000 with ⟨he, _⟩ | ⟨he, _⟩ <;>
        rw [he] <;> nlinarith
    refine ⟨le_max_right _ _, ?_, ?_⟩
    · refine le_trans ?_ (le_max_left _ _)
      unfold backoffJitter
      nlinarith
    · apply max_le
      · unfold backoffJitter
        nlinarith
      · nlinarith
  · intro maxRetries method retryableMethods outcomes
    unfold fetchWithRetry
    split
    · split <;> simp
    · calc (fetchWithRetryLoop outcomes maxRetries (maxRetries + 1) 0 none).2
          ≤ maxRetries + 1 := fetchWithRetryLoop_count _ _ _ _ _

/-- Witness for C4's delay bounds at the concrete input `n = 0`,
`rand = 1/2`. -/
theorem fetchWithRetry_backoff_and_attempt_bounds_witness :
    ((0 : ℚ) ≤ 0 ∧ (0 : ℚ) < 1)
    ∧ (100 ≤ retryDelay 0 0
      ∧ (85 / 100) * baseDelay 0 ≤ retryDelay 0 0
      ∧ retryDelay 0 0 ≤ (115 / 100) * baseDelay 0) :=
  ⟨⟨le_refl 0, zero_lt_one⟩,
   fetchWithRetry_backoff_and_attempt_bounds.1 0 0 (le_refl 0) zero_lt_one⟩

/-- C5: retries happen only when `maxRetries > 0` and the method is
retryable (otherwise exactly one `fetch` is issued), and a response with
status below 500 — in particular any 4xx — is returned to the caller by
the attempt that produced it, with no further fetches, regardless of
`maxRetries`. -/
theorem fetchWithRetry_no_4xx_retry :
    (∀ (maxRetries : Nat) (method : String)
        (retryableMethods : List String) (outcomes : Nat → FetchOutcome),
        maxRetries ≤ 0 ∨ ¬ retryableMethods.contains method →
        (fetchWithRetry maxRetries method retryableMethods outcomes).2 = 1)
    ∧ (∀ (outcomes : Nat → FetchOutcome)
        (maxRetries fuel attempt : Nat) (lastError : Option String)
        (resp : UpstreamResponse),
        outcomes attempt = .success resp → resp.status < 500 →
        fetchWithRetryLoop outcomes maxRetries (fuel + 1) attempt lastError
          = (.returned resp, 1))
    ∧ (∀ (maxRetries : Nat) (method : String)
        (retryableMethods : List String) (outcomes : Nat → FetchOutcome)
        (resp : UpstreamResponse),
        outcomes 0 = .success resp → resp.status < 500 →
        fetchWithRetry maxRetries method retryableMethods outcomes
          = (.returned resp, 1)) := by
  have hloop : ∀ (outcomes : Nat → FetchOutcome)
      (maxRetries fuel attempt : Nat) (lastError : Option String)
      (resp : UpstreamResponse),
      outcomes attempt = .success resp → resp.status < 500 →
      fetchWithRetryLoop outcomes maxRetries (fuel + 1) attempt lastError
        = (.returned resp, 1) := by
    intro outcomes maxRetries fuel attempt lastError resp hout hstatus
    simp only [fetchWithRetryLoop, hout]
    rw [if_neg (by omega)]
  refine ⟨?_, hloop, ?_⟩
  · intro maxRetries method retryableMethods outcomes hcond
    unfold fetchWithRetry
    rw [if_pos hcond]
  · intro maxRetries method retryableMethods outcomes resp hout hstatus
    unfold fetchWithRetry
    split
    · rw [hout]
    · next hcond =>
      have hm : 1 ≤ maxRetries := by omega
      obtain ⟨f, hf⟩ : ∃ f, maxRetries + 1 = f + 1 := ⟨maxRetries, rfl⟩
      rw [hf]
      exact hloop outcomes maxRetries f 0 none resp hout hstatus

/-- Witness for C5 at concrete inputs: with `maxRetries = 0` a POST issues
exactly one fetch, and a 404 response is returned immediately with one
fetch even with `maxRetries = 5`. -/
theorem fetchWithRetry_no_4xx_retry_witness :
    ((0 ≤ 0 ∨ ¬ (["GET", "HEAD", "OPTIONS"] : List String).contains "POST")
      ∧ (fetchWithRetry 0 "POST" ["GET", "HEAD", "OPTIONS"]
          (fun _ => .failure "network down")).2 = 1)
    ∧ (((fun _ => .success ⟨404, "Not Found"⟩ : Nat → FetchOutcome) 0
          = .success ⟨404, "Not Found"⟩ ∧ (404 : Nat) < 500)
      ∧ fetchWithRetry 5 "GET" ["GET", "HEAD", "OPTIONS"]
          (fun _ => .success ⟨404, "Not Found"⟩)
          = (.returned ⟨404, "Not Found"⟩, 1)) :=
  ⟨⟨Or.inl (by decide),
    fetchWithRetry_no_4xx_retry.1 0 "POST" ["GET", "HEAD", "OPTIONS"]
      (fun _ => .failure "network down") (Or.inl (by decide))⟩,
   ⟨⟨rfl, by decide⟩,
    fetchWithRetry_no_4xx_retry.2.2 5 "GET" ["GET", "HEAD", "OPTIONS"]
      (fun _ => .success ⟨404, "Not Found"⟩) ⟨404, "Not Found"⟩ rfl
      (by decide)⟩⟩

/-- C7 counterexample: the error-response builder emits neither a
processing-mode nor a processing-time header, so an error response from
the gateway (e.g. a 404 for an unknown service) violates the claimed
guarantee; the OPTIONS 204 preflight response and the health-check
response violate it too — they carry no correlation-id, no
processing-mode and no processing-time header. -/
theorem createErrorResponse_missing_mode_cex :
    (createErrorResponseHeaders "req-1" "*" "x-processing-mode" = none
      ∧ createErrorResponseHeaders "req-1" "*" "x-processing-time" = none
      ∧ createErrorResponseHeaders "req-1" "*" "x-request-id" = some "req-1")
    ∧ (optionsResponseHeaders "*" "x-request-id" = none
      ∧ optionsResponseHeaders "*" "x-processing-mode" = none
      ∧ optionsResponseHeaders "*" "x-processing-time" = none)
    ∧ (healthResponseHeaders "*" "x-request-id" = none
      ∧ healthResponseHeaders "*" "x-processing-mode" = none
      ∧ healthResponseHeaders "*" "x-processing-time" = none) := by
  exact ⟨⟨rfl, rfl, rfl⟩, ⟨rfl, rfl, rfl⟩, ⟨rfl, rfl, rfl⟩⟩

/-- C7 (amended): successful upstream responses from both dispatch paths
carry the correlation id, the processing-mode tag, the processing-time
header and the CORS allow-origin header; error responses built by
`createErrorResponse` carry the correlation id and the CORS allow-origin
header but no processing-mode and no processing-time header; and the
OPTIONS 204 preflight response and the health-check response carry the
CORS allow-origin header but no correlation id, no processing-mode and
no processing-time header. -/
theorem responseHeaders_guarantees :
    (∀ (upstream : List (String × String)) (reqId procTime origin : String),
      edgeResponseHeaders upstream reqId procTime origin "x-request-id"
          = some reqId
      ∧ edgeResponseHeaders upstream reqId procTime origin "x-processing-mode"
          = some "edge"
      ∧ edgeResponseHeaders upstream reqId procTime origin "x-processing-time"
          = some procTime
      ∧ edgeResponseHeaders upstream reqId procTime origin
          "access-control-allow-origin" = some origin)
    ∧ (∀ (bg : List (String × String)) (reqId procTime origin : String),
      backgroundResponseHeaders bg reqId procTime origin "x-request-id"
          = some reqId
      ∧ backgroundResponseHeaders bg reqId procTime origin "x-processing-mode"
          = some "background"
      ∧ backgroundResponseHeaders bg reqId procTime origin "x-processing-time"
          = some procTime
      ∧ backgroundResponseHeaders bg reqId procTime origin
          "access-control-allow-origin" = some origin)
    ∧ (∀ reqId origin : String,
      createErrorResponseHeaders reqId origin "x-request-id" = some reqId
      ∧ createErrorResponseHeaders reqId origin "access-control-allow-origin"
          = some origin
      ∧ createErrorResponseHeaders reqId origin "x-processing-mode" = none
      ∧ createErrorResponseHeaders reqId origin "x-processing-time" = none)
    ∧ (∀ origin : String,
      optionsResponseHeaders origin "access-control-allow-origin" = some origin
      ∧ optionsResponseHeaders origin "x-request-id" = none
      ∧ optionsResponseHeaders origin "x-processing-mode" = none
      ∧ optionsResponseHeaders origin "x-processing-time" = none)
    ∧ (∀ origin : String,
      healthResponseHeaders origin "access-control-allow-origin" = some origin
      ∧ healthResponseHeaders origin "x-request-id" = none
      ∧ healthResponseHeaders origin "x-processing-mode" = none
      ∧ healthResponseHeaders origin "x-processing-time" = none) := by
  refine ⟨?_, ?_, ?_, ?_, ?_⟩
  · intro upstream reqId procTime origin
    exact ⟨rfl, rfl, rfl, rfl⟩
  · intro bg reqId procTime origin
    exact ⟨rfl, rfl, rfl, rfl⟩
  · intro reqId origin
    exact ⟨rfl, rfl, rfl, rfl⟩
  · intro origin
    exact ⟨rfl, rfl, rfl, rfl⟩
  · intro origin
    exact ⟨rfl, rfl, rfl, rfl⟩

lemma char_toNat_lt (c : Char) : c.toNat < 1114112 := by
  rcases c.valid with h | ⟨_, h⟩
  · exact Nat.lt_trans h (by norm_num)
  · exact h

lemma utf8Bytes_lt_256 (c : Char) : ∀ b ∈ utf8Bytes c, b < 256 := by
  have hc := char_toNat_lt c
  unfold utf8Bytes
  intro b hb
  split_ifs at hb <;> simp at hb <;> omega

lemma utf8Bytes_ne_nil (c : Char) : utf8Bytes c ≠ [] := by
  unfold utf8Bytes
  split_ifs <;> simp

lemma hexDigit_facts (n : Nat) (h : n < 16) :
    hexDigit n ≠ '%' ∧ hexDigit n ≠ '/' ∧ hexDigit n ≠ '.'
    ∧ hexDigit n ≠ 'a' := by
  interval_cases n <;> exact ⟨by decide, by decide, by decide, by decide⟩

lemma hexDigit_eq_three (n : Nat) (h : n < 16) : hexDigit n = '3' ↔ n = 3 := by
  interval_cases n <;> decide

lemma hexDigit_eq_capA (n : Nat) (h : n < 16) : hexDigit n = 'A' ↔ n = 10 := by
  interval_cases n <;> decide

lemma mem_concatMap {α β : Type} (f : α → List β) (l : List α) (x : β) :
    x ∈ concatMap f l ↔ ∃ a ∈ l, x ∈ f a := by
  induction l with
  | nil => simp [concatMap]
  | cons a as ih => simp [concatMap, ih]

lemma concatMap_append {α β : Type} (f : α → List β) (l₁ l₂ : List α) :
    concatMap f (l₁ ++ l₂) = concatMap f l₁ ++ concatMap f l₂ := by
  induction l₁ with
  | nil => rfl
  | cons a as ih => simp [concatMap, ih]

lemma pctByteRepl_ne_nil (b : Nat) : pctByteRepl b ≠ [] := by
  unfold pctByteRepl percentEncodeByte
  split_ifs <;> simp

lemma mem_pctByteRepl (b : Nat) (hb : b < 256) (x : Char)
    (h : x ∈ pctByteRepl b) :
    x = ':' ∨ x = '%' ∨ ∃ n, n < 16 ∧ x = hexDigit n := by
  unfold pctByteRepl percentEncodeByte at h
  split_ifs at h
  · simp at h
    exact Or.inl h
  · simp at h
    rcases h with h | h | h
    · exact Or.inr (Or.inl h)
    · exact Or.inr (Or.inr ⟨b / 16, by omega, h⟩)
    · exact Or.inr (Or.inr ⟨b % 16, by omega, h⟩)

lemma encCharRepl_ne_nil (c : Char) : encCharRepl c ≠ [] := by
  unfold encCharRepl
  split_ifs
  · simp
  · cases hu : utf8Bytes c with
    | nil => exact absurd hu (utf8Bytes_ne_nil c)
    | cons b bs =>
      simp only [concatMap]
      intro hcontra
      rcases List.append_eq_nil.mp hcontra with ⟨h1, _⟩
      exact pctByteRepl_ne_nil b h1

lemma slash_not_mem_encCharRepl (c : Char) : '/' ∉ encCharRepl c := by
  unfold encCharRepl
  split_ifs with h
  · simp only [List.mem_singleton]
    intro he
    rw [← he] at h
    exact absurd h (by decide)
  · intro hmem
    rw [mem_concatMap] at hmem
    obtain ⟨b, hb, hx⟩ := hmem
    have hb256 := utf8Bytes_lt_256 c b hb
    rcases mem_pctByteRepl b hb256 _ hx with h1 | h1 | ⟨n, hn, h1⟩
    · exact absurd h1 (by decide)
    · exact absurd h1 (by decide)
    · exact absurd h1.symm (hexDigit_facts n hn).2.1

lemma dot_mem_encCharRepl (c : Char) (h : '.' ∈ encCharRepl c) : c = '.' := by
  unfold encCharRepl at h
  split_ifs at h
  · simp at h
    exact h.symm
  · rw [mem_concatMap] at h
    obtain ⟨b, hb, hx⟩ := h
    have hb256 := utf8Bytes_lt_256 c b hb
    rcases mem_pctByteRepl b hb256 _ hx with h1 | h1 | ⟨n, hn, h1⟩
    · exact absurd h1 (by decide)
    · exact absurd h1 (by decide)
    · exact absurd h1.symm (hexDigit_facts n hn).2.2.1

lemma replaceColonEscapes_cons_ne (c : Char) (l : List Char) (h : c ≠ '%') :
    replaceColonEscapes (c :: l) = c :: replaceColonEscapes l := by
  rw [replaceColonEscapes.eq_def]
  split
  · rename_i heq
    simp at heq
  · rename_i c2 rest2 heq
    injection heq with h1 h2
    subst h1
    subst h2
    rw [if_neg h]

lemma replaceColonEscapes_triple (d e : Char) (l : List Char) :
    replaceColonEscapes ('%' :: d :: e :: l)
      = if d = '3' ∧ (e = 'A' ∨ e = 'a') then ':' :: replaceColonEscapes l
        else '%' :: replaceColonEscapes (d :: e :: l) := by
  rw [replaceColonEscapes.eq_def]
  simp

lemma replaceColonEscapes_pct (b : Nat) (hb : b < 256) (l : List Char) :
    replaceColonEscapes (percentEncodeByte b ++ l)
      = pctByteRepl b ++ replaceColonEscapes l := by
  have hd16 : b / 16 < 16 := by omega
  have hm16 : b % 16 < 16 := by omega
  have hshape : percentEncodeByte b ++ l
      = '%' :: hexDigit (b / 16) :: hexDigit (b % 16) :: l := rfl
  rw [hshape, replaceColonEscapes_triple]
  by_cases h58 : b = 58
  · subst h58
    rw [if_pos ⟨by decide, Or.inl (by decide)⟩]
    rw [show pctByteRepl 58 = [':'] from by decide]
    rfl
  · have hcond : ¬ (hexDigit (b / 16) = '3'
        ∧ (hexDigit (b % 16) = 'A' ∨ hexDigit (b % 16) = 'a')) := by
      rintro ⟨h3, hA | ha⟩
      · rw [hexDigit_eq_three _ hd16] at h3
        rw [hexDigit_eq_capA _ hm16] at hA
        omega
      · exact (hexDigit_facts _ hm16).2.2.2 ha
    rw [if_neg hcond]
    rw [replaceColonEscapes_cons_ne _ _ (hexDigit_facts _ hd16).1]
    rw [replaceColonEscapes_cons_ne _ _ (hexDigit_facts _ hm16).1]
    rw [show pctByteRepl b = percentEncodeByte b from by
      unfold pctByteRepl; rw [if_neg h58]]
    rfl

lemma replaceColonEscapes_concatPct (bs : List Nat) (h : ∀ b ∈ bs, b < 256)
    (l : List Char) :
    replaceColonEscapes (concatMap percentEncodeByte bs ++ l)
      = concatMap pctByteRepl bs ++ replaceColonEscapes l := by
  induction bs with
  | nil => rfl
  | cons b bs ih =>
    simp only [concatMap, List.append_assoc]
    rw [replaceColonEscapes_pct b (h b (by simp)) _]
    rw [ih (fun x hx => h x (by simp [hx]))]

lemma replaceColonEscapes_encodeChar (c : Char) (l : List Char) :
    replaceColonEscapes (encodeChar c ++ l)
      = encCharRepl c ++ replaceColonEscapes l := by
  unfold encodeChar encCharRepl
  split_ifs with h
  · simp only [List.cons_append, List.nil_append]
    apply replaceColonEscapes_cons_ne
    intro he
    rw [he] at h
    exact absurd h (by decide)
  · exact replaceColonEscapes_concatPct _ (utf8Bytes_lt_256 c) l

lemma encodeSegmentPart_eq (s : List Char) :
    encodeSegmentPart s = concatMap encCharRepl s := by
  induction s with
  | nil => rfl
  | cons c s ih =>
    unfold encodeSegmentPart encodeURIComponent at *
    simp only [concatMap]
    rw [replaceColonEscapes_encodeChar, ih]

lemma slash_not_mem_encodeSegmentPart (s : List Char) :
    '/' ∉ encodeSegmentPart s := by
  rw [encodeSegmentPart_eq]
  intro h
  rw [mem_concatMap] at h
  obtain ⟨c, _, hc⟩ := h
  exact slash_not_mem_encCharRepl c hc

lemma concatMap_eq_nil_imp {α β : Type} (f : α → List β)
    (h : ∀ a, f a ≠ []) (l : List α) (he : concatMap f l = []) : l = [] := by
  cases l with
  | nil => rfl
  | cons a as =>
    simp only [concatMap] at he
    rcases List.append_eq_nil.mp he with ⟨h1, _⟩
    exact absurd h1 (h a)

lemma concatMap_eq_singleton {α β : Type} (f : α → List β)
    (h : ∀ a, f a ≠ []) (l : List α) (x : β)
    (he : concatMap f l = [x]) : ∃ c, l = [c] ∧ f c = [x] := by
  cases l with
  | nil => simp [concatMap] at he
  | cons a as =>
    simp only [concatMap] at he
    cases hfa : f a with
    | nil => exact absurd hfa (h a)
    | cons y ys =>
      rw [hfa] at he
      simp only [List.cons_append, List.cons_eq_cons] at he
      obtain ⟨hy, hrest⟩ := he
      rcases List.append_eq_nil.mp hrest with ⟨h1, h2⟩
      have has : as = [] := concatMap_eq_nil_imp f h as h2
      exact ⟨a, by rw [has], by rw [hfa, hy, h1]⟩

lemma concatMap_eq_pair {α β : Type} (f : α → List β)
    (h : ∀ a, f a ≠ []) (l : List α) (x y : β)
    (he : concatMap f l = [x, y]) :
    (∃ c, l = [c] ∧ f c = [x, y])
    ∨ (∃ c d, l = [c, d] ∧ f c = [x] ∧ f d = [y]) := by
  cases l with
  | nil => simp [concatMap] at he
  | cons a as =>
    simp only [concatMap] at he
    cases hfa : f a with
    | nil => exact absurd hfa (h a)
    | cons z zs =>
      rw [hfa] at he
      simp only [List.cons_append, List.cons_eq_cons] at he
      obtain ⟨hz, hrest⟩ := he
      cases zs with
      | nil =>
        simp only [List.nil_append] at hrest
        obtain ⟨d, hd1, hd2⟩ := concatMap_eq_singleton f h as y hrest
        exact Or.inr ⟨a, d, by rw [hd1], by rw [hfa, hz], hd2⟩
      | cons w ws =>
        simp only [List.cons_append, List.cons_eq_cons] at hrest
        obtain ⟨hw, hrest2⟩ := hrest
        rcases List.append_eq_nil.mp hrest2 with ⟨h1, h2⟩
        have has : as = [] := concatMap_eq_nil_imp f h as h2
        exact Or.inl ⟨a, by rw [has], by rw [hfa, hz, hw, h1]⟩

lemma encodeSegmentPart_ne_dot (s : List Char) (hs : s ≠ ['.']) :
    encodeSegmentPart s ≠ ['.'] := by
  rw [encodeSegmentPart_eq]
  intro h
  obtain ⟨c, hl, hc⟩ := concatMap_eq_singleton _ encCharRepl_ne_nil _ _ h
  have : c = '.' := dot_mem_encCharRepl c (by rw [hc]; simp)
  rw [this] at hl
  exact hs hl

lemma encodeSegmentPart_ne_dotdot (s : List Char) (hs : s ≠ ['.', '.']) :
    encodeSegmentPart s ≠ ['.', '.'] := by
  rw [encodeSegmentPart_eq]
  intro h
  rcases concatMap_eq_pair _ encCharRepl_ne_nil _ _ _ h with
    ⟨c, hl, hc⟩ | ⟨c, d, hl, hc, hd⟩
  · have hcd : c = '.' := dot_mem_encCharRepl c (by rw [hc]; simp)
    rw [hcd] at hc
    have : encCharRepl '.' = ['.'] := by decide
    rw [this] at hc
    simp at hc
  · have hcd : c = '.' := dot_mem_encCharRepl c (by rw [hc]; simp)
    have hdd : d = '.' := dot_mem_encCharRepl d (by rw [hd]; simp)
    rw [hcd, hdd] at hl
    exact hs hl

lemma splitChar_ne_nil (sep : Char) (l : List Char) :
    splitChar sep l ≠ [] := by
  induction l with
  | nil => simp [splitChar]
  | cons c rest ih =>
    simp only [splitChar]
    cases h : splitChar sep rest with
    | nil => exact absurd h ih
    | cons s ss => split_ifs <;> simp

lemma splitChar_no_sep (sep : Char) (l : List Char) (h : sep ∉ l) :
    splitChar sep l = [l] := by
  induction l with
  | nil => rfl
  | cons c rest ih =>
    simp only [List.mem_cons] at h
    push_neg at h
    simp only [splitChar, ih h.2]
    rw [if_neg (fun he => h.1 he.symm)]

lemma splitChar_append (sep : Char) (a t : List Char) (h : sep ∉ a) :
    splitChar sep (a ++ sep :: t) = a :: splitChar sep t := by
  induction a with
  | nil =>
    simp only [List.nil_append, splitChar]
    cases hsp : splitChar sep t with
    | nil => exact absurd hsp (splitChar_ne_nil sep t)
    | cons s ss => simp
  | cons c a ih =>
    simp only [List.mem_cons] at h
    push_neg at h
    have hne : ¬ c = sep := fun he => h.1 he.symm
    simp only [List.cons_append, splitChar]
    rw [List.append_eq, ih h.2]
    simp [hne]

lemma splitChar_joinChar (sep : Char) (l : List (List Char)) (hne : l ≠ [])
    (h : ∀ s ∈ l, sep ∉ s) : splitChar sep (joinChar sep l) = l := by
  induction l with
  | nil => exact absurd rfl hne
  | cons a l ih =>
    cases l with
    | nil =>
      simp only [joinChar]
      exact splitChar_no_sep sep a (h a (by simp))
    | cons b l' =>
      have hj : joinChar sep (a :: b :: l') = a ++ sep :: joinChar sep (b :: l') := by
        simp [joinChar]
      rw [hj, splitChar_append sep a _ (h a (by simp))]
      rw [ih (by simp) (fun s hs => h s (by simp [hs]))]

/-- C10: for every list of path segments (slash-free strings), applying
`sanitizePath` removes every empty, `.` and `..` segment before joining,
so the resulting user path, split back on `/`, contains no dot-segment —
no path traversal toward the provider host. -/
theorem sanitizePath_no_dot_segments (parts : List (List Char))
    (hparts : ∀ p ∈ parts, '/' ∉ p) :
    ∀ s ∈ splitChar '/' (sanitizePath parts), s ≠ ['.'] ∧ s ≠ ['.', '.'] := by
  intro s hs
  have hfl : ∀ seg ∈ (parts.filter fun seg =>
      !(seg == [] || seg == ['.'] || seg == ['.', '.'])),
      '/' ∉ seg ∧ seg ≠ [] ∧ seg ≠ ['.'] ∧ seg ≠ ['.', '.'] := by
    intro seg hseg
    rw [List.mem_filter] at hseg
    obtain ⟨h1, h2⟩ := hseg
    simp only [Bool.not_eq_true', Bool.or_eq_false_iff, beq_eq_false_iff_ne,
      ne_eq] at h2
    exact ⟨hparts seg h1, h2.1.1, h2.1.2, h2.2⟩
  have hmap : ((parts.filter fun seg =>
        !(seg == [] || seg == ['.'] || seg == ['.', '.'])).map
      fun seg => joinChar '/' ((splitChar '/' seg).map encodeSegmentPart))
      = (parts.filter fun seg =>
        !(seg == [] || seg == ['.'] || seg == ['.', '.'])).map
          encodeSegmentPart := by
    apply List.map_congr_left
    intro seg hseg
    rw [splitChar_no_sep _ _ (hfl seg hseg).1]
    simp [joinChar]
  unfold sanitizePath at hs
  rw [hmap] at hs
  cases hflc : (parts.filter fun seg =>
      !(seg == [] || seg == ['.'] || seg == ['.', '.'])) with
  | nil =>
    rw [hflc] at hs
    simp only [List.map_nil, joinChar, splitChar, List.mem_singleton] at hs
    subst hs
    exact ⟨by simp, by simp⟩
  | cons a l' =>
    rw [hflc] at hs
    rw [splitChar_joinChar '/' _ (by simp)
      (by
        intro e he
        rw [List.mem_map] at he
        obtain ⟨seg, _, hseg⟩ := he
        rw [← hseg]
        exact slash_not_mem_encodeSegmentPart seg)] at hs
    rw [List.mem_map] at hs
    obtain ⟨seg, hseg, hrfl⟩ := hs
    have hseg' := hfl seg (by rw [hflc]; exact hseg)
    subst hrfl
    exact ⟨encodeSegmentPart_ne_dot seg hseg'.2.2.1,
      encodeSegmentPart_ne_dotdot seg hseg'.2.2.2⟩

/-- Witness for C10 at a concrete input: segments
`["a", "", ".", "..", "b:c"]`. -/
theorem sanitizePath_no_dot_segments_witness :
    (∀ p ∈ [['a'], [], ['.'], ['.', '.'], ['b', ':', 'c']], '/' ∉ p)
    ∧ (∀ s ∈ splitChar '/'
        (sanitizePath [['a'], [], ['.'], ['.', '.'], ['b', ':', 'c']]),
        s ≠ ['.'] ∧ s ≠ ['.', '.']) :=
  ⟨by decide,
   sanitizePath_no_dot_segments [['a'], [], ['.'], ['.', '.'], ['b', ':', 'c']]
     (by decide)⟩

end Gateway
